import Mathlib

/-!
Verification of the SmartBoard governance-voting core against its
natural-language specification.

The development shallowly embeds the Python sources:
  * `contracts/proposal_contract.py` — the NEO contract (create / vote /
    finalize / get_proposal / has_voted) over pipe-delimited records;
  * `backend/app/neo_client.py` — the `NeoClient` ledger client and its
    in-memory simulation backend;
  * `backend/app/vote_service.py` — `process_vote`;
  * `backend/app/main.py` — the `/vote` and `/finalize` endpoints;
  * `backend/app/blockchain_listener.py` — the reconciliation listener;
  * `backend/app/vote_simulation_agent.py` — the synthetic vote agent.

Python strings are embedded as `List Char`, machine ints as `Nat`
(all quantities involved — ids, tallies, timestamps, confidences — are
non-negative in the source), floats (`time.time()`, probabilities) as `ℚ`,
and fallible code as `Except`.
-/

set_option maxHeartbeats 1000000

namespace SmartBoard

/-! ### Decimal printing and parsing

Embeds Python `str` on non-negative ints and `int()` on the decimal digit
strings that occur in ledger records (the records produced by the code never
carry signs, spaces or underscores, so the digit-string fragment of `int()`
is the part being modelled). -/

/-- The reserved field delimiter of the ledger wire format. -/
def pipe : Char := '|'

/-- Decimal digit to its character, as Python string formatting produces. -/
def digitChar (d : Nat) : Char := Char.ofNat (48 + d)

/-- Character to its decimal digit value, as `int()` consumes. -/
def charDigit (c : Char) : Nat := c.toNat - 48

/-- Fuel-indexed core of decimal printing (most significant digit first). -/
def natToCharsAux : Nat → Nat → List Char
  | 0, _ => []
  | fuel + 1, n =>
    if n < 10 then [digitChar n]
    else natToCharsAux fuel (n / 10) ++ [digitChar (n % 10)]

/-- Python `str(n)` for a non-negative int `n`: its decimal digits. -/
def natToChars (n : Nat) : List Char := natToCharsAux (n + 1) n

/-- Python `int(s)` restricted to plain decimal digit strings; any other
string raises `ValueError`, modelled as `none`. -/
def parseNat? (s : List Char) : Option Nat :=
  if s ≠ [] ∧ s.all Char.isDigit then
    some (s.foldl (fun a c => a * 10 + charDigit c) 0)
  else none

theorem charDigit_digitChar {d : Nat} (h : d < 10) : charDigit (digitChar d) = d := by
  interval_cases d <;> decide

theorem isDigit_digitChar {d : Nat} (h : d < 10) : (digitChar d).isDigit = true := by
  interval_cases d <;> decide

theorem natToCharsAux_congr :
    ∀ fuel fuel' n, n < fuel → n < fuel' →
      natToCharsAux fuel n = natToCharsAux fuel' n
  | fuel + 1, fuel' + 1, n, _, _ => by
    simp only [natToCharsAux]
    split
    · rfl
    · rename_i h10
      have hd : n / 10 < n := Nat.div_lt_self (by omega) (by omega)
      rw [natToCharsAux_congr fuel fuel' (n / 10) (by omega) (by omega)]

theorem natToChars_eq (n : Nat) :
    natToChars n = if n < 10 then [digitChar n]
      else natToChars (n / 10) ++ [digitChar (n % 10)] := by
  show (if n < 10 then [digitChar n]
    else natToCharsAux n (n / 10) ++ [digitChar (n % 10)]) = _
  rcases Nat.lt_or_ge n 10 with h | h
  · rw [if_pos h, if_pos h]
  · have hd : n / 10 < n := Nat.div_lt_self (by omega) (by omega)
    rw [if_neg (by omega), if_neg (by omega)]
    rw [natToCharsAux_congr n (n / 10 + 1) (n / 10) hd (Nat.lt_succ_self _)]
    rfl

theorem natToChars_ne_nil (n : Nat) : natToChars n ≠ [] := by
  rw [natToChars_eq]
  split <;> simp

theorem natToChars_all_digits (n : Nat) : ∀ c ∈ natToChars n, c.isDigit = true := by
  induction n using Nat.strong_induction_on with
  | _ n ih =>
    rw [natToChars_eq]
    split
    · rename_i h10
      intro c hc
      simp only [List.mem_singleton] at hc
      subst hc
      exact isDigit_digitChar h10
    · rename_i h10
      intro c hc
      rcases List.mem_append.mp hc with h | h
      · exact ih (n / 10) (Nat.div_lt_self (by omega) (by omega)) c h
      · simp only [List.mem_singleton] at h
        subst h
        exact isDigit_digitChar (Nat.mod_lt _ (by omega))

theorem pipe_not_mem_natToChars (n : Nat) : pipe ∉ natToChars n := by
  intro hmem
  have := natToChars_all_digits n pipe hmem
  revert this
  decide

theorem foldl_natToChars (n : Nat) :
    ∀ a : Nat, (natToChars n).foldl (fun a c => a * 10 + charDigit c) a =
      a * 10 ^ (natToChars n).length + n := by
  induction n using Nat.strong_induction_on with
  | _ n ih =>
    intro a
    rw [natToChars_eq]
    split
    · rename_i h10
      simp only [List.foldl, List.length_singleton, pow_one, charDigit_digitChar h10]
    · rename_i h10
      have hd : n / 10 < n := Nat.div_lt_self (by omega) (by omega)
      rw [List.foldl_append, ih (n / 10) hd a]
      simp only [List.foldl, List.length_append, List.length_singleton]
      rw [charDigit_digitChar (Nat.mod_lt _ (by omega)), pow_succ, ← Nat.mul_assoc]
      have hmod := Nat.div_add_mod n 10
      generalize a * 10 ^ (natToChars (n / 10)).length = Q
      omega

theorem parseNat_natToChars (n : Nat) : parseNat? (natToChars n) = some n := by
  unfold parseNat?
  rw [if_pos]
  · rw [foldl_natToChars n 0]
    simp
  · refine ⟨natToChars_ne_nil n, ?_⟩
    rw [List.all_eq_true]
    intro c hc
    exact natToChars_all_digits n c hc

/-! ### Ledger Codec

The wire format `title|ipfs_hash|deadline|confidence|yes_votes|no_votes|finalized`
is produced by `create_proposal` in `proposal_contract.py` (line 62) and by
`NeoClient.get_proposal` (lines 150-164), and consumed by `split('|')` plus
`int(...)` in the contract's `vote` (lines 94-100) and in
`blockchain_listener.py` (lines 88-98). -/

/-- A decoded seven-field ledger record. -/
structure LedgerRecord where
  title : List Char
  ipfs_hash : List Char
  deadline : Nat
  confidence : Nat
  yes_votes : Nat
  no_votes : Nat
  finalized : Bool
deriving DecidableEq, Repr

/-- Encoding: join the seven fields with the pipe delimiter, the `finalized`
flag written as `1`/`0` (as in `NeoClient.get_proposal`). -/
def encodeRecord (r : LedgerRecord) : List Char :=
  List.intercalate [pipe]
    [r.title, r.ipfs_hash, natToChars r.deadline, natToChars r.confidence,
     natToChars r.yes_votes, natToChars r.no_votes,
     natToChars (if r.finalized then 1 else 0)]

/-- Decoding: `split('|')`, require at least seven fields, parse the five
numeric fields with `int(...)`, read `finalized` as the test `== 1`
(as in `blockchain_listener.py` lines 90-94). -/
def decodeRecord (s : List Char) : Option LedgerRecord :=
  let parts := s.splitOn pipe
  if parts.length < 7 then none
  else
    match parseNat? (parts.getD 2 []), parseNat? (parts.getD 3 []),
        parseNat? (parts.getD 4 []), parseNat? (parts.getD 5 []),
        parseNat? (parts.getD 6 []) with
    | some dl, some conf, some y, some nv, some f =>
      some ⟨parts.getD 0 [], parts.getD 1 [], dl, conf, y, nv, f == 1⟩
    | _, _, _, _, _ => none

theorem splitOn_encodeRecord (r : LedgerRecord)
    (ht : pipe ∉ r.title) (hi : pipe ∉ r.ipfs_hash) :
    (encodeRecord r).splitOn pipe =
      [r.title, r.ipfs_hash, natToChars r.deadline, natToChars r.confidence,
       natToChars r.yes_votes, natToChars r.no_votes,
       natToChars (if r.finalized then 1 else 0)] := by
  apply List.splitOn_intercalate
  · intro l hl
    simp only [List.mem_cons, List.not_mem_nil, or_false] at hl
    rcases hl with rfl | rfl | rfl | rfl | rfl | rfl | rfl
    · exact ht
    · exact hi
    all_goals exact pipe_not_mem_natToChars _
  · simp

/-- C4: decode(encode(r)) == r for every well-formed seven-field ledger record
whose title and content hash do not contain the pipe delimiter. The concrete
scenario of the claim (the record behind the string
Deal X|cid123|1700000000|90|3|2|0) is checked in the witness below. -/
theorem ledger_codec_decode_encode_roundtrip (r : LedgerRecord)
    (ht : pipe ∉ r.title) (hi : pipe ∉ r.ipfs_hash) :
    decodeRecord (encodeRecord r) = some r := by
  obtain ⟨t, i, dl, c, y, nv, f⟩ := r
  unfold decodeRecord
  rw [splitOn_encodeRecord _ ht hi]
  cases f <;> simp [parseNat_natToChars]

/-- The record of the spec scenario: confidence 90, yes 3, no 2, not finalized. -/
def exampleRecord : LedgerRecord :=
  ⟨"Deal X".data, "cid123".data, 1700000000, 90, 3, 2, false⟩

/-- The wire line of the spec scenario. -/
def exampleRecordLine : List Char := "Deal X|cid123|1700000000|90|3|2|0".data

/-- Witness for C4: at the spec scenario the hypotheses hold, the line decodes
to confidence 90, yes 3, no 2, finalized false, and re-encoding reproduces
the identical string. -/
theorem ledger_codec_decode_encode_roundtrip_witness :
    decodeRecord (encodeRecord exampleRecord) = some exampleRecord ∧
    encodeRecord exampleRecord = exampleRecordLine ∧
    decodeRecord exampleRecordLine = some exampleRecord := by
  have henc : encodeRecord exampleRecord = exampleRecordLine := by
    simp +decide [encodeRecord, exampleRecord, exampleRecordLine,
      natToChars_eq, digitChar, List.intercalate]
  have h := ledger_codec_decode_encode_roundtrip exampleRecord (by decide) (by decide)
  exact ⟨h, henc, henc ▸ h⟩

/-! ### Python dict embedding

Python dicts are embedded as insertion-ordered association lists. -/

/-- Python `m.get(k)` / `m[k]`. -/
def alookup {α β : Type} [DecidableEq α] (m : List (α × β)) (k : α) : Option β :=
  (m.find? (fun e => decide (e.1 = k))).map (fun e => e.2)

/-- Python `k in m`. -/
def amem {α β : Type} [DecidableEq α] (m : List (α × β)) (k : α) : Bool :=
  m.any (fun e => decide (e.1 = k))

/-- Python `m[k] = v`: overwrite in place, or append a fresh key. -/
def ainsert {α β : Type} [DecidableEq α] (m : List (α × β)) (k : α) (v : β) :
    List (α × β) :=
  if amem m k then m.map (fun e => if e.1 = k then (k, v) else e) else m ++ [(k, v)]

/-- Python `m.get(k, d)`. -/
def alookupD {α β : Type} [DecidableEq α] (m : List (α × β)) (k : α) (d : β) : β :=
  (alookup m k).getD d

/-- In-place mutation of the value stored at `k` (such as `m[k]["f"] += 1`). -/
def aupdate {α β : Type} [DecidableEq α] (m : List (α × β)) (k : α) (f : β → β) :
    List (α × β) :=
  m.map (fun e => if e.1 = k then (e.1, f e.2) else e)

/-! ### The deployed contract (`contracts/proposal_contract.py`)

Contract storage holds the proposal counter, the encoded proposal strings
(key `proposal:<id>`) and the vote records (key `vote:<id><voter>`; voters
are fixed-width `UInt160` script hashes, so the key is in bijection with the
`(id, voter)` pair, which is how it is embedded — voters themselves are
opaque strings). `time` (the block timestamp) and the `check_witness` result
enter as parameters. An `abort()` or an uncaught `int()` `ValueError` faults
the invocation, and a faulted NEO transaction persists no storage writes. -/

structure ContractStorage where
  proposal_count : Nat
  proposals : List (Nat × List Char)
  votes : List ((Nat × String) × Nat)
deriving DecidableEq, Repr

def initialContractStorage : ContractStorage := ⟨0, [], []⟩

inductive ContractOutcome
  | returned (b : Bool)
  | aborted
  | faulted
deriving DecidableEq, Repr

/-- `create_proposal` (contract lines 37-65). -/
def contract_create_proposal (st : ContractStorage) (title ipfs_hash : List Char)
    (deadline confidence : Nat) : ContractStorage × Nat :=
  let proposal_id := st.proposal_count + 1
  let proposal_data := title ++ [pipe] ++ ipfs_hash ++ [pipe] ++ natToChars deadline
      ++ [pipe] ++ natToChars confidence ++ "|0|0|0".data
  ({ st with proposal_count := proposal_id,
             proposals := ainsert st.proposals proposal_id proposal_data },
   proposal_id)

/-- `vote` (contract lines 69-130). -/
def contract_vote (st : ContractStorage) (time : Nat) (witnessOk : Bool)
    (proposal_id : Nat) (voter : String) (choice : Nat) :
    ContractStorage × ContractOutcome :=
  if !witnessOk then (st, .aborted)
  else
    match alookup st.proposals proposal_id with
    | none => (st, .returned false)
    | some proposal_data =>
      let parts := proposal_data.splitOn pipe
      if parts.length < 7 then (st, .returned false)
      else
        match parseNat? (parts.getD 2 []), parseNat? (parts.getD 6 []) with
        | some deadline, some finalized =>
          if time > deadline ∨ finalized = 1 then (st, .returned false)
          else if amem st.votes (proposal_id, voter) then (st, .returned false)
          else
            match parseNat? (parts.getD 4 []), parseNat? (parts.getD 5 []) with
            | some yes_votes, some no_votes =>
              let yes_votes := if choice = 1 then yes_votes + 1 else yes_votes
              let no_votes := if choice = 1 then no_votes else no_votes + 1
              let parts := (parts.set 4 (natToChars yes_votes)).set 5
                  (natToChars no_votes)
              let updated := List.intercalate [pipe] parts
              ({ st with
                   votes := ainsert st.votes (proposal_id, voter) choice,
                   proposals := ainsert st.proposals proposal_id updated },
               .returned true)
            | _, _ => (st, .faulted)
        | _, _ => (st, .faulted)

/-- `finalize_proposal` (contract lines 134-173). -/
def contract_finalize_proposal (st : ContractStorage) (time : Nat)
    (proposal_id : Nat) : ContractStorage × ContractOutcome :=
  match alookup st.proposals proposal_id with
  | none => (st, .returned false)
  | some proposal_data =>
    let parts := proposal_data.splitOn pipe
    if parts.length < 7 then (st, .returned false)
    else
      match parseNat? (parts.getD 2 []), parseNat? (parts.getD 6 []) with
      | some deadline, some finalized =>
        if finalized = 1 then (st, .returned false)
        else if time < deadline then (st, .returned false)
        else
          let updated := List.intercalate [pipe] (parts.set 6 ['1'])
          ({ st with proposals := ainsert st.proposals proposal_id updated },
           .returned true)
      | _, _ => (st, .faulted)

/-- `has_voted` (contract lines 211-223). -/
def contract_has_voted (st : ContractStorage) (proposal_id : Nat)
    (voter : String) : Bool :=
  amem st.votes (proposal_id, voter)

/-! ### The `NeoClient` ledger client (`backend/app/neo_client.py`)

In simulation mode the client serves everything from its in-memory maps;
with real credentials every method logs that the real implementation is not
configured and falls back to the same simulation, so the simulation methods
are the client's behaviour in both modes. Transaction hashes are
`"0x" + sha256(tx_data)` where `tx_data` interpolates the arguments and
`time.time()`; sha256 is idealised as injective, so the hash is embedded as
the structured pre-image (`salt` standing for the `time.time()` part). -/

inductive TxHash
  | createTx (pid : Nat) (title ipfs : List Char) (salt : Nat)
  | voteTx (pid : Nat) (voter : String) (choice : Nat) (salt : Nat)
  | finalizeTx (pid : Nat) (salt : Nat)
deriving DecidableEq, Repr

/-- Python exceptions that reach the vote path. -/
inductive PyExc
  | valueError (msg : String)
  | attributeError
  | integrityError
deriving DecidableEq, Repr

/-- One entry of `NeoClient.simulated_proposals` (dict literal at
`neo_client.py` lines 190-199). -/
structure SimProposal where
  id : Nat
  title : List Char
  ipfs_hash : List Char
  deadline : Nat
  confidence : Nat
  yes_votes : Nat
  no_votes : Nat
  finalized : Bool
deriving DecidableEq, Repr

/-- The mutable simulation state of a `NeoClient` instance. -/
structure NeoState where
  simulated_proposals : List (Nat × SimProposal)
  simulated_votes : List ((Nat × String) × Nat)
  next_proposal_id : Nat
deriving DecidableEq, Repr

def initialNeoState : NeoState := ⟨[], [], 1⟩

/-- `_simulate_create_proposal` (lines 181-202). -/
def simulate_create_proposal (st : NeoState) (title ipfs_hash : List Char)
    (deadline confidence : Nat) (salt : Nat) : NeoState × TxHash × Nat :=
  let proposal_id := st.next_proposal_id
  ({ st with
       next_proposal_id := proposal_id + 1,
       simulated_proposals := ainsert st.simulated_proposals proposal_id
         ⟨proposal_id, title, ipfs_hash, deadline, confidence, 0, 0, false⟩ },
   .createTx proposal_id title ipfs_hash salt, proposal_id)

/-- `_simulate_vote` (lines 204-222): raises `ValueError` on a repeated
`(proposal_id, voter)` key, otherwise records the choice and bumps the tally
only when the proposal id is present in the map. -/
def simulate_vote (st : NeoState) (proposal_id : Nat) (voter : String)
    (choice : Nat) (salt : Nat) : Except PyExc (NeoState × TxHash) :=
  if amem st.simulated_votes (proposal_id, voter) then
    .error (.valueError "Voter has already voted on this proposal")
  else
    let st := { st with
      simulated_votes := ainsert st.simulated_votes (proposal_id, voter) choice }
    let bump := fun (p : SimProposal) =>
      if choice = 1 then { p with yes_votes := p.yes_votes + 1 }
      else { p with no_votes := p.no_votes + 1 }
    let st :=
      if amem st.simulated_proposals proposal_id then
        { st with simulated_proposals := aupdate st.simulated_proposals proposal_id bump }
      else st
    .ok (st, .voteTx proposal_id voter choice salt)

/-- `_simulate_finalize` (lines 224-233). -/
def simulate_finalize (st : NeoState) (proposal_id : Nat) (salt : Nat) :
    NeoState × TxHash :=
  let fin := fun (p : SimProposal) => { p with finalized := true }
  let st :=
    if amem st.simulated_proposals proposal_id then
      { st with simulated_proposals := aupdate st.simulated_proposals proposal_id fin }
    else st
  (st, .finalizeTx proposal_id salt)

/-- `NeoClient.get_proposal` (lines 140-164): the stored record re-encoded in
the contract wire format, or the empty string when absent. -/
def neo_get_proposal (st : NeoState) (proposal_id : Nat) : List Char :=
  match alookup st.simulated_proposals proposal_id with
  | none => []
  | some p => encodeRecord ⟨p.title, p.ipfs_hash, p.deadline, p.confidence,
      p.yes_votes, p.no_votes, p.finalized⟩

/-- The class body of `NeoClient` (lines 18-233) defines create, vote,
finalize and get_proposal methods but no `has_voted` method, so Python
attribute lookup on the call `neo_client.has_voted(...)` raises
`AttributeError` for every argument. -/
def neoclient_has_voted (_st : NeoState) (_proposal_id : Nat) (_voter : String) :
    Except PyExc Bool :=
  .error .attributeError

theorem amem_append_single {α β : Type} [DecidableEq α]
    (m : List (α × β)) (k : α) (v : β) : amem (m ++ [(k, v)]) k = true := by
  simp [amem]

theorem ainsert_of_not_mem {α β : Type} [DecidableEq α]
    {m : List (α × β)} {k : α} (v : β) (h : amem m k = false) :
    ainsert m k v = m ++ [(k, v)] := by
  simp [ainsert, h]

/-- C10: for a proposal id absent from the simulation backend's in-memory
proposal map, cast_vote does not fail with any not-found error: it records
the (id, voter) choice and returns the vote transaction hash while leaving
the proposal map (hence every tally) unchanged, and a second vote by the
same voter on the same absent id raises the already-voted ValueError. -/
theorem simulate_vote_absent_proposal_accepts (st : NeoState) (pid : Nat)
    (voter : String) (choice choice2 salt salt2 : Nat)
    (hp : amem st.simulated_proposals pid = false)
    (hv : amem st.simulated_votes (pid, voter) = false) :
    simulate_vote st pid voter choice salt =
      .ok ({ st with simulated_votes := st.simulated_votes ++ [((pid, voter), choice)] },
        .voteTx pid voter choice salt) ∧
    simulate_vote
        { st with simulated_votes := st.simulated_votes ++ [((pid, voter), choice)] }
        pid voter choice2 salt2 =
      .error (.valueError "Voter has already voted on this proposal") := by
  constructor
  · unfold simulate_vote
    rw [hv, ainsert_of_not_mem choice hv]
    simp [hp]
  · unfold simulate_vote
    rw [amem_append_single]
    simp

/-- Witness for C10 at a concrete input: proposal id 5 exists nowhere in the
fresh simulation state, voter NVoterX has not voted, and the two conclusions
hold. -/
theorem simulate_vote_absent_proposal_accepts_witness :
    amem initialNeoState.simulated_proposals 5 = false ∧
    amem initialNeoState.simulated_votes (5, "NVoterX") = false ∧
    (simulate_vote initialNeoState 5 "NVoterX" 1 3 =
      .ok ({ initialNeoState with
        simulated_votes := initialNeoState.simulated_votes ++ [((5, "NVoterX"), 1)] },
        .voteTx 5 "NVoterX" 1 3) ∧
    simulate_vote
        { initialNeoState with
          simulated_votes := initialNeoState.simulated_votes ++ [((5, "NVoterX"), 1)] }
        5 "NVoterX" 0 4 =
      .error (.valueError "Voter has already voted on this proposal")) :=
  ⟨by decide, by decide,
   simulate_vote_absent_proposal_accepts initialNeoState 5 "NVoterX" 1 0 3 4
     (by decide) (by decide)⟩

/-! ### C2: simulation backend versus contract behaviour -/

def c2Neo0 : NeoState :=
  (simulate_create_proposal initialNeoState "Deal X".data "cid123".data 100 80 3).1

def c2Neo1 : NeoState := (simulate_finalize c2Neo0 1 4).1

def c2Con0 : ContractStorage :=
  (contract_create_proposal initialContractStorage "Deal X".data "cid123".data 100 80).1

def c2Con1 : ContractStorage := (contract_finalize_proposal c2Con0 100 1).1

/-- C2 counterexample: after creating proposal 1 and finalizing it in both
backends, a fresh voter's cast_vote on the finalized record succeeds in the
simulation backend — no VotingClosed failure, and the yes tally is even
incremented to 1 — while the contract's vote at the same block time rejects
it and leaves its storage unchanged. The two backends are therefore not
behaviorally identical, and `_simulate_vote` does not enforce the
finalized rule. -/
theorem simulation_accepts_vote_on_finalized_record :
    (alookup c2Neo1.simulated_proposals 1).map SimProposal.finalized = some true ∧
    (simulate_vote c2Neo1 1 "NVoterA" 1 7).toOption ≠ none ∧
    ((simulate_vote c2Neo1 1 "NVoterA" 1 7).toOption.map
      (fun r => (alookup r.1.simulated_proposals 1).map SimProposal.yes_votes)) =
      some (some 1) ∧
    contract_vote c2Con1 100 true 1 "NVoterA" 1 = (c2Con1, .returned false) := by
  decide

/-- C2 amended: `_simulate_vote` fails — with the already-voted ValueError —
exactly when the (proposal_id, voter) pair already has a recorded choice, and
succeeds otherwise; in particular it checks neither the finalized flag nor
the deadline, so its external behaviour is not identical to the contract's
vote operation. -/
theorem simulate_vote_checks_only_already_voted (st : NeoState) (pid : Nat)
    (voter : String) (choice salt : Nat) :
    (simulate_vote st pid voter choice salt =
        .error (.valueError "Voter has already voted on this proposal") ↔
      amem st.simulated_votes (pid, voter) = true) ∧
    (amem st.simulated_votes (pid, voter) = false →
      ∃ st' tx, simulate_vote st pid voter choice salt = .ok (st', tx)) := by
  constructor
  · unfold simulate_vote
    rcases h : amem st.simulated_votes (pid, voter) <;> simp [h]
  · intro h
    unfold simulate_vote
    rw [h]
    simp

/-- Witness for C2's amended statement: in the finalized post-create state
`c2Neo1` the fresh pair (1, NVoterA) has no recorded choice and cast_vote
succeeds. -/
theorem simulate_vote_checks_only_already_voted_witness :
    amem c2Neo1.simulated_votes (1, "NVoterA") = false ∧
    ∃ st' tx, simulate_vote c2Neo1 1 "NVoterA" 1 7 = .ok (st', tx) :=
  ⟨by decide,
   (simulate_vote_checks_only_already_voted c2Neo1 1 "NVoterA" 1 7).2 (by decide)⟩

/-! ### Proposal Store (`backend/app/models.py`)

Only the columns the voting core reads or writes are embedded; the text and
metadata columns (title, summary, ipfs_cid, created_at, proposal_metadata,
tx_hash on proposals) are carried by no claim. The `votes` table has the
unique index `idx_vote_proposal_voter` on (proposal_id, voter_address)
(models.py lines 51-55); `deadline` is a nullable integer column. -/

structure DBVote where
  proposal_id : Nat
  voter_address : String
  vote : Nat
  tx_hash : Option TxHash
deriving DecidableEq, Repr

structure DBProposal where
  id : Nat
  on_chain_id : Option Nat
  confidence : Nat
  status : String
  yes_votes : Nat
  no_votes : Nat
  deadline : Option Nat
deriving DecidableEq, Repr

structure LocalDB where
  proposals : List DBProposal
  votes : List DBVote
deriving DecidableEq, Repr

def emptyDB : LocalDB := ⟨[], []⟩

/-- Python `a or b` on an optional int (`proposal.on_chain_id or proposal.id`):
None and 0 are falsy and select the fallback. -/
def orFalsy (o : Option Nat) (d : Nat) : Nat :=
  match o with
  | none => d
  | some x => if x = 0 then d else x

/-- Non-emptiness of `db.query(Vote).filter(proposal_id == pid,
voter_address == addr).first()`. -/
def hasVoteRow (votes : List DBVote) (pid : Nat) (addr : String) : Bool :=
  votes.any (fun v => decide (v.proposal_id = pid ∧ v.voter_address = addr))

/-- Representative `str(e)` texts for the exceptions that reach an HTTP 500
detail (the claims depend on which response class is produced, never on the
verbatim interpreter text). -/
def pyMsg : PyExc → String
  | .valueError m => m
  | .attributeError => "NeoClient object has no attribute has_voted"
  | .integrityError => "UNIQUE constraint failed: votes.proposal_id, votes.voter_address"

/-- `NeoClient.vote` (neo_client.py lines 80-109): in simulation mode it
calls `_simulate_vote`; with real credentials it logs that the real
implementation is not configured and falls back to `_simulate_vote` too. -/
def neoclient_vote (st : NeoState) (proposal_id : Nat) (voter : String)
    (choice : Nat) (salt : Nat) : Except PyExc (NeoState × TxHash) :=
  simulate_vote st proposal_id voter choice salt

deriving instance DecidableEq for Except

/-- Error outcomes of `process_vote`: a raised `HTTPException`, or a raised
plain Python exception. -/
inductive VoteErr
  | httpExc (status : Nat) (detail : String)
  | pyExc (e : PyExc)
deriving DecidableEq, Repr

/-- The success payload of `process_vote` (its returned dict minus the
constant success flag). -/
structure VoteResult where
  tx_hash : Option TxHash
  yes_votes : Nat
  no_votes : Nat
deriving DecidableEq, Repr

/-- `process_vote` (vote_service.py lines 25-109): local dedup check, then
the on-chain `has_voted` check — whose `AttributeError` is swallowed by the
fail-open `except Exception` branch — then `neo_client.vote`, then the Vote
row insert, tally bump and commit.

The `concurrent` parameter models rows committed by other sessions between
this session's SELECT and its COMMIT: the commit re-checks the unique index
against them and raises `IntegrityError` when violated; a race-free call
passes `[]` (such rows enter the shared database through the racing
caller's own commit, not through this one). The ledger state is returned in
every outcome because `NeoClient` mutations are outside the database
transaction; the new database value exists only on commit — callers roll
back to their old value on any exception. -/
def process_vote (neo : NeoState) (db : LocalDB) (proposal : DBProposal)
    (voter_address : String) (vote_value : Nat)
    (concurrent : List DBVote) (salt : Nat) :
    NeoState × Except VoteErr (LocalDB × VoteResult) :=
  if hasVoteRow db.votes proposal.id voter_address then
    (neo, .error (.httpExc 400 "Voter has already voted on this proposal"))
  else
    match neoclient_has_voted neo (orFalsy proposal.on_chain_id proposal.id)
        voter_address with
    | .ok true =>
      (neo, .error (.httpExc 400 "Voter has already voted on this proposal (on-chain)"))
    | .ok false | .error _ =>
      match neoclient_vote neo (orFalsy proposal.on_chain_id proposal.id)
          voter_address vote_value salt with
      | .error e => (neo, .error (.pyExc e))
      | .ok (neo1, tx) =>
        if hasVoteRow concurrent proposal.id voter_address then
          (neo1, .error (.pyExc .integrityError))
        else
          let newRow : DBVote := ⟨proposal.id, voter_address, vote_value, some tx⟩
          let bump := fun (p : DBProposal) =>
            if vote_value = 1 then { p with yes_votes := p.yes_votes + 1 }
            else { p with no_votes := p.no_votes + 1 }
          let db1 : LocalDB :=
            ⟨db.proposals.map (fun p => if p.id = proposal.id then bump p else p),
             db.votes ++ [newRow]⟩
          let yes := if vote_value = 1 then proposal.yes_votes + 1 else proposal.yes_votes
          let no := if vote_value = 1 then proposal.no_votes else proposal.no_votes + 1
          (neo1, .ok (db1, ⟨some tx, yes, no⟩))

/-- Responses of the vote endpoints as the HTTP layer sees them. -/
inductive VoteResponse
  | ok (r : VoteResult)
  | err (status : Nat) (detail : String)
deriving DecidableEq, Repr

/-- The `/vote` endpoint (main.py lines 860-902): 404 when the proposal row
is missing, 400 when it is not active, 400 on the endpoint's own duplicate
pre-check, then `process_vote`; `HTTPException` is re-raised after rollback
and any other exception becomes a 500 after rollback. -/
def vote_endpoint (neo : NeoState) (db : LocalDB) (proposal_id : Nat)
    (voter_address : String) (vote : Nat) (concurrent : List DBVote) (salt : Nat) :
    NeoState × LocalDB × VoteResponse :=
  match db.proposals.find? (fun p => decide (p.id = proposal_id)) with
  | none => (neo, db, .err 404 "Proposal not found")
  | some proposal =>
    if proposal.status ≠ "active" then (neo, db, .err 400 "Proposal is not active")
    else if hasVoteRow db.votes proposal_id voter_address then
      (neo, db, .err 400 "Voter has already voted on this proposal")
    else
      match process_vote neo db proposal voter_address vote concurrent salt with
      | (neo1, .ok (db1, r)) => (neo1, db1, .ok r)
      | (neo1, .error (.httpExc s d)) => (neo1, db, .err s d)
      | (neo1, .error (.pyExc e)) =>
        (neo1, db, .err 500 ("Failed to process vote: " ++ pyMsg e))

/-! ### C1 and C3: duplicate-vote handling on the vote path -/

/-- Ledger state in which the chain already records voter NVoterA on
proposal 1 while the local mirror holds no Vote row — the staleness the
remote dedup check exists for. -/
def c1Neo : NeoState := { c2Neo0 with simulated_votes := [((1, "NVoterA"), 1)] }

/-- Local mirror of proposal 1, active, no votes. -/
def c1DB : LocalDB := ⟨[⟨1, some 1, 80, "active", 0, 0, some 100⟩], []⟩

/-- C1 (code bug): `NeoClient` exposes no `has_voted` operation, so the Vote
Processor's remote dedup check raises `AttributeError`, which the fail-open
handler swallows. With the chain recording NVoterA as having voted on
proposal 1 and the local mirror stale, the submission is not rejected with
the on-chain DuplicateVote before ledger submission: it proceeds to
cast_vote, whose ValueError surfaces as HTTP 500, never as the 400
on-chain-duplicate response. -/
theorem remote_dedup_check_never_fires :
    neoclient_has_voted c1Neo 1 "NVoterA" = .error .attributeError ∧
    vote_endpoint c1Neo c1DB 1 "NVoterA" 1 [] 9 =
      (c1Neo, c1DB,
       .err 500 "Failed to process vote: Voter has already voted on this proposal") ∧
    (vote_endpoint c1Neo c1DB 1 "NVoterA" 1 [] 9).2.2 ≠
      .err 400 "Voter has already voted on this proposal (on-chain)" := by
  decide

/-- C3 counterexample: voter NVoterB has no local Vote row but loses the
race — a row for (1, NVoterB) is committed by another session between this
session's SELECT and COMMIT. The unique-index violation propagates out of
`process_vote` as a raw `IntegrityError` and surfaces as HTTP 500, not as
the 400 DuplicateVote response (the local database stays rolled back). -/
theorem constraint_race_not_reported_as_duplicate :
    hasVoteRow c1DB.votes 1 "NVoterB" = false ∧
    (vote_endpoint c2Neo0 c1DB 1 "NVoterB" 1 [⟨1, "NVoterB", 1, none⟩] 9).2.2 =
      .err 500 "Failed to process vote: UNIQUE constraint failed: votes.proposal_id, votes.voter_address" ∧
    (vote_endpoint c2Neo0 c1DB 1 "NVoterB" 1 [⟨1, "NVoterB", 1, none⟩] 9).2.1 = c1DB := by
  decide

theorem process_vote_integrity_error (neo : NeoState) (db : LocalDB)
    (proposal : DBProposal) (addr : String) (v : Nat)
    (concurrent : List DBVote) (salt : Nat)
    (hnodup : hasVoteRow db.votes proposal.id addr = false)
    (hneo : amem neo.simulated_votes
      (orFalsy proposal.on_chain_id proposal.id, addr) = false)
    (hconc : hasVoteRow concurrent proposal.id addr = true) :
    (process_vote neo db proposal addr v concurrent salt).2 =
      .error (.pyExc .integrityError) := by
  unfold process_vote
  rw [hnodup]
  simp only [Bool.false_eq_true, if_false, neoclient_has_voted, neoclient_vote]
  unfold simulate_vote
  rw [hneo]
  simp [hconc]

/-- C3 amended: a second vote submission for a pair with a persisted Vote
row returns the 400 DuplicateVote response and leaves the local database —
hence both tallies — unchanged; but when the duplicate appears only at
persist time through the (proposal_id, voter_address) uniqueness constraint,
the failure is reported as a raw storage error through HTTP 500, not as
DuplicateVote (the local database is still rolled back unchanged). -/
theorem second_vote_duplicate_behaviour (neo : NeoState) (db : LocalDB)
    (pid : Nat) (addr : String) (v : Nat) (concurrent : List DBVote) (salt : Nat)
    (proposal : DBProposal)
    (hfind : db.proposals.find? (fun p => decide (p.id = pid)) = some proposal)
    (hactive : proposal.status = "active") :
    (hasVoteRow db.votes pid addr = true →
      vote_endpoint neo db pid addr v concurrent salt =
        (neo, db, .err 400 "Voter has already voted on this proposal")) ∧
    (hasVoteRow db.votes pid addr = false →
     hasVoteRow concurrent pid addr = true →
     amem neo.simulated_votes (orFalsy proposal.on_chain_id pid, addr) = false →
      (vote_endpoint neo db pid addr v concurrent salt).2 =
        (db, .err 500 ("Failed to process vote: " ++ pyMsg PyExc.integrityError))) := by
  have hpid : proposal.id = pid := by
    have := List.find?_some hfind
    simpa using this
  constructor
  · intro hdup
    unfold vote_endpoint
    rw [hfind]
    simp [hactive, hdup]
  · intro hnodup hconc hneo
    rw [← hpid] at hnodup hconc hneo
    have hkey := process_vote_integrity_error neo db proposal addr v concurrent salt
      hnodup hneo hconc
    have hnodup2 : hasVoteRow db.votes pid addr = false := by
      rw [← hpid]
      exact hnodup
    unfold vote_endpoint
    rw [hfind]
    dsimp only
    rw [if_neg (by simp [hactive])]
    rw [hnodup2, if_neg (by simp)]
    rcases h : process_vote neo db proposal addr v concurrent salt with ⟨neo1, res⟩
    have hres : res = .error (.pyExc .integrityError) := by
      rw [h] at hkey
      exact hkey
    subst hres
    rfl

/-- Local mirror in which NVoterA already has a persisted Vote row on
proposal 1 and the tally reflects it. -/
def c3DupDB : LocalDB :=
  ⟨[⟨1, some 1, 80, "active", 1, 0, some 100⟩], [⟨1, "NVoterA", 1, none⟩]⟩

/-- Witness for C3's amended statement: with NVoterA's row persisted, the
second submission yields the 400 DuplicateVote response and the database is
returned unchanged. -/
theorem second_vote_duplicate_behaviour_witness :
    c3DupDB.proposals.find? (fun p => decide (p.id = 1)) =
      some ⟨1, some 1, 80, "active", 1, 0, some 100⟩ ∧
    hasVoteRow c3DupDB.votes 1 "NVoterA" = true ∧
    vote_endpoint c2Neo0 c3DupDB 1 "NVoterA" 1 [] 9 =
      (c2Neo0, c3DupDB, .err 400 "Voter has already voted on this proposal") :=
  ⟨by decide, by decide,
   (second_vote_duplicate_behaviour c2Neo0 c3DupDB 1 "NVoterA" 1 [] 9
     ⟨1, some 1, 80, "active", 1, 0, some 100⟩ (by decide) (by decide)).1 (by decide)⟩

/-! ### Finalization (`main.py`) and reconciliation
(`blockchain_listener.py`) -/

/-- `NeoClient.finalize_proposal` (neo_client.py lines 111-138):
`_simulate_finalize` in simulation mode, and the unconfigured-real fallback
reaches the same simulation; a configured remote RPC may raise instead,
which the endpoint below models through its `ledgerExc` parameter. -/
def neoclient_finalize_proposal (st : NeoState) (proposal_id : Nat)
    (salt : Nat) : NeoState × TxHash :=
  simulate_finalize st proposal_id salt

inductive FinalizeResponse
  | ok (status : String) (tx : TxHash) (yes no : Nat)
  | err (statusCode : Nat) (detail : String)
deriving DecidableEq, Repr

/-- The `/finalize` endpoint (main.py lines 992-1053). `ledgerExc` is the
outcome of the `neo_client.finalize_proposal` call inside the try block:
`none` when the call returns, `some e` when it raises; a raised exception
hits the except branch, which rolls the session back before any status
assignment, so neither status nor tallies change. -/
def finalize_endpoint (neo : NeoState) (db : LocalDB) (proposal_id : Nat)
    (ledgerExc : Option PyExc) (salt : Nat) :
    NeoState × LocalDB × FinalizeResponse :=
  match db.proposals.find? (fun p => decide (p.id = proposal_id)) with
  | none => (neo, db, .err 404 "Proposal not found")
  | some proposal =>
    if proposal.status ≠ "active" then (neo, db, .err 400 "Proposal is not active")
    else
      match ledgerExc with
      | some e => (neo, db, .err 500 ("Failed to finalize proposal: " ++ pyMsg e))
      | none =>
        let r := neoclient_finalize_proposal neo
          (orFalsy proposal.on_chain_id proposal_id) salt
        let newStatus :=
          if proposal.yes_votes > proposal.no_votes then "approved" else "rejected"
        let upd := fun (p : DBProposal) =>
          if p.id = proposal.id then { p with status := newStatus } else p
        (r.1, ⟨db.proposals.map upd, db.votes⟩,
         .ok newStatus r.2 proposal.yes_votes proposal.no_votes)

/-- One iteration of the listener's `_check_for_finalized_proposals` loop
for a single locally active proposal (blockchain_listener.py lines 77-126):
split the fetched record, read `finalized`, and when it is 1 compute the
outcome from the remote tallies and adopt it while the row is still active.
`int()` failures on malformed parts are caught per-proposal and skip it. -/
def listener_adopt (db : LocalDB) (proposal : DBProposal)
    (on_chain_data : List Char) : LocalDB :=
  if on_chain_data = [] then db
  else
    let parts := on_chain_data.splitOn pipe
    if parts.length < 7 then db
    else
      match parseNat? (parts.getD 6 []) with
      | none => db
      | some fin =>
        if fin = 1 then
          match parseNat? (parts.getD 4 []), parseNat? (parts.getD 5 []) with
          | some yes_votes, some no_votes =>
            let status := if yes_votes > no_votes then "approved" else "rejected"
            if proposal.status = "active" then
              ⟨db.proposals.map (fun p =>
                if p.id = proposal.id then { p with status := status } else p),
               db.votes⟩
            else db
          | _, _ => db
        else db

theorem encodeRecord_ne_nil (r : LedgerRecord) : encodeRecord r ≠ [] := by
  unfold encodeRecord
  simp [List.intercalate, List.intersperse]

/-- C6: the finalization outcome is a pure function of the final tallies —
yes greater than no yields approved, otherwise rejected, so a tie rejects —
and the reconciliation listener applies this identical rule when it adopts
a remote finalized outcome for a locally active proposal. -/
theorem finalize_outcome_rule (neo : NeoState) (db : LocalDB) (pid salt : Nat)
    (proposal : DBProposal) (on_chain : LedgerRecord)
    (hfind : db.proposals.find? (fun p => decide (p.id = pid)) = some proposal)
    (hactive : proposal.status = "active")
    (hfin : on_chain.finalized = true)
    (hpt : pipe ∉ on_chain.title) (hpi : pipe ∉ on_chain.ipfs_hash) :
    (finalize_endpoint neo db pid none salt).2.2 =
      .ok (if proposal.yes_votes > proposal.no_votes then "approved" else "rejected")
        (neoclient_finalize_proposal neo (orFalsy proposal.on_chain_id pid) salt).2
        proposal.yes_votes proposal.no_votes ∧
    (proposal.yes_votes = proposal.no_votes →
      (finalize_endpoint neo db pid none salt).2.2 =
        .ok "rejected"
          (neoclient_finalize_proposal neo (orFalsy proposal.on_chain_id pid) salt).2
          proposal.yes_votes proposal.no_votes) ∧
    listener_adopt db proposal (encodeRecord on_chain) =
      ⟨db.proposals.map (fun p =>
        if p.id = proposal.id then
          { p with status :=
              if on_chain.yes_votes > on_chain.no_votes then "approved" else "rejected" }
        else p), db.votes⟩ := by
  have hmain : (finalize_endpoint neo db pid none salt).2.2 =
      .ok (if proposal.yes_votes > proposal.no_votes then "approved" else "rejected")
        (neoclient_finalize_proposal neo (orFalsy proposal.on_chain_id pid) salt).2
        proposal.yes_votes proposal.no_votes := by
    unfold finalize_endpoint
    rw [hfind]
    dsimp only
    rw [if_neg (by simp [hactive])]
  refine ⟨hmain, ?_, ?_⟩
  · intro htie
    rw [hmain, htie]
    simp
  · unfold listener_adopt
    rw [if_neg (encodeRecord_ne_nil on_chain)]
    simp only [splitOn_encodeRecord on_chain hpt hpi, hfin, List.getD_cons_succ,
      List.getD_cons_zero, parseNat_natToChars, hactive]
    simp

/-- C7: finalize on a proposal whose status is not active returns the
not-active error (the code's rendering of AlreadyFinalized) and changes
neither tallies nor status — ledger and database come back untouched; and
when the Ledger Client finalize call fails, the endpoint rolls back before
any status assignment, so the proposal stays active (fail-closed). -/
theorem finalize_non_active_or_ledger_failure (neo : NeoState) (db : LocalDB)
    (pid salt : Nat) (proposal : DBProposal) (e : PyExc) (opt : Option PyExc)
    (hfind : db.proposals.find? (fun p => decide (p.id = pid)) = some proposal) :
    (proposal.status ≠ "active" →
      finalize_endpoint neo db pid opt salt =
        (neo, db, .err 400 "Proposal is not active")) ∧
    (proposal.status = "active" →
      finalize_endpoint neo db pid (some e) salt =
        (neo, db, .err 500 ("Failed to finalize proposal: " ++ pyMsg e))) := by
  constructor
  · intro h
    unfold finalize_endpoint
    rw [hfind]
    dsimp only
    rw [if_pos h]
  · intro h
    unfold finalize_endpoint
    rw [hfind]
    dsimp only
    rw [if_neg (by simp [h])]

def c6Prop : DBProposal := ⟨1, some 1, 80, "active", 2, 1, some 100⟩

def c6DB : LocalDB := ⟨[c6Prop], []⟩

def c6Rec : LedgerRecord := ⟨"Deal X".data, "cid123".data, 100, 90, 3, 2, true⟩

/-- Witness for C6: tallies 2 versus 1 finalize to approved, and the
listener adopting the finalized remote record with tallies 3 versus 2 sets
the local status to approved. -/
theorem finalize_outcome_rule_witness :
    (finalize_endpoint c2Neo0 c6DB 1 none 5).2.2 =
      .ok "approved" (neoclient_finalize_proposal c2Neo0 1 5).2 2 1 ∧
    listener_adopt c6DB c6Prop (encodeRecord c6Rec) =
      ⟨[⟨1, some 1, 80, "approved", 2, 1, some 100⟩], []⟩ := by
  have h := finalize_outcome_rule c2Neo0 c6DB 1 5 c6Prop c6Rec
    (by decide) (by decide) (by decide) (by decide) (by decide)
  constructor
  · rw [h.1]
    decide
  · rw [h.2.2]
    decide

def c7Prop : DBProposal := ⟨2, none, 50, "approved", 3, 3, none⟩

def c7DB : LocalDB := ⟨[c6Prop, c7Prop], []⟩

/-- Witness for C7: finalizing the already-approved proposal 2 returns the
not-active error with everything unchanged, and a failing ledger call on
the active proposal 1 leaves the database (status active) unchanged. -/
theorem finalize_non_active_or_ledger_failure_witness :
    finalize_endpoint c2Neo0 c7DB 2 none 5 =
      (c2Neo0, c7DB, .err 400 "Proposal is not active") ∧
    finalize_endpoint c2Neo0 c7DB 1 (some (.valueError "RPC timeout")) 5 =
      (c2Neo0, c7DB, .err 500 "Failed to finalize proposal: RPC timeout") := by
  constructor
  · exact (finalize_non_active_or_ledger_failure c2Neo0 c7DB 2 5 c7Prop
      (.valueError "RPC timeout") none (by decide)).1 (by decide)
  · exact (finalize_non_active_or_ledger_failure c2Neo0 c7DB 1 5 c6Prop
      (.valueError "RPC timeout") none (by decide)).2 (by decide)

/-! ### Synthetic Vote Agent (`backend/app/vote_simulation_agent.py`)

`time.time()` values and probabilities are floats in the source; both are
embedded as exact rationals — every float the claims touch is compared, not
rounded, so the order structure is what matters. -/

structure AgentState where
  interval_seconds : ℚ
  max_votes_per_proposal : Nat
  yes_probability : ℚ
  last_vote_at : List (Nat × ℚ)
  vote_counters : List (Nat × Nat)
deriving DecidableEq, Repr

/-- `SimulatedVotingAgent.__init__` (lines 37-53): interval clamped to at
least 0.5, cap to at least 1, bias to [0, 1]. -/
def mkAgent (interval_seconds : ℚ) (max_votes_per_proposal : Nat)
    (yes_probability : ℚ) : AgentState :=
  ⟨max interval_seconds (1/2), max max_votes_per_proposal 1,
   min (max yes_probability 0) 1, [], []⟩

/-- The blended yes-probability threshold computed by `_decide_vote`
(lines 144-151): `proposal.confidence or 50` replaces a falsy (zero)
confidence by 50, the weight `confidence / 100` is clamped to [0, 1], and
the blend with the configured bias to [0.05, 0.95]. -/
def decide_vote_threshold (ag : AgentState) (confidence : Nat) : ℚ :=
  let c : Nat := if confidence = 0 then 50 else confidence
  let confidence_weight : ℚ := min (max ((c : ℚ) / 100) 0) 1
  min (max ((ag.yes_probability + confidence_weight) / 2) (5/100)) (95/100)

/-- `_decide_vote`: yes exactly when the uniform `random.random()` sample
falls below the threshold, so the threshold is the yes-probability. -/
def decide_vote (ag : AgentState) (confidence : Nat) (r : ℚ) : Nat :=
  if r < decide_vote_threshold ag confidence then 1 else 0

/-- The probability formula the claim states, written from the spec for
comparison with the code's threshold. -/
def spec_vote_probability (yes_bias : ℚ) (confidence : Nat) : ℚ :=
  min (max ((yes_bias + (confidence : ℚ) / 100) / 2) (5/100)) (95/100)

/-- Zero-padded five-digit index as the 05d format produces. -/
def pad5 (n : Nat) : List Char :=
  let ds := natToChars n
  List.replicate (5 - ds.length) '0' ++ ds

/-- `_generate_voter_address` (lines 153-159); reading the defaultdict is
embedded as a defaulted lookup, whose observable behaviour is identical. -/
def generate_voter_address (ag : AgentState) (proposal_id current_votes : Nat) :
    String :=
  let next_index := max (alookupD ag.vote_counters proposal_id 0) current_votes + 1
  String.mk ("sim-voter-".data ++ natToChars proposal_id ++ ['-'] ++ pad5 next_index)

/-- One body of the per-proposal loop inside `_tick` (lines 89-140), for the
proposal id `pid` drawn from the tick's active-proposal snapshot; `rand pid`
is the uniform sample `random.random()` consumed by `_decide_vote` for this
proposal (each snapshot id is processed at most once per tick). A vote is
attempted only past the cap, deadline and interval guards; on success the
agent records the vote time and bumps its counter, and any exception leaves
the agent state untouched and the loop running. -/
def tick_one (now : ℚ) (rand : Nat → ℚ) (salt : Nat)
    (st : AgentState × NeoState × LocalDB) (pid : Nat) :
    AgentState × NeoState × LocalDB :=
  match st.2.2.proposals.find? (fun p => decide (p.id = pid)) with
  | none => st
  | some proposal =>
    let current_votes := proposal.yes_votes + proposal.no_votes
    if current_votes ≥ st.1.max_votes_per_proposal then st
    else if (match proposal.deadline with
             | none => false
             | some d => decide (d ≠ 0) && decide (now > (d : ℚ))) then st
    else if now - alookupD st.1.last_vote_at pid 0 < st.1.interval_seconds then st
    else
      let vote_value := decide_vote st.1 proposal.confidence (rand pid)
      let voter := generate_voter_address st.1 pid current_votes
      match process_vote st.2.1 st.2.2 proposal voter vote_value [] salt with
      | (neo1, .ok (db1, _)) =>
        ({ st.1 with
             last_vote_at := ainsert st.1.last_vote_at pid now,
             vote_counters := ainsert st.1.vote_counters pid
               (alookupD st.1.vote_counters pid 0 + 1) },
         neo1, db1)
      | (neo1, .error _) => (st.1, neo1, st.2.2)

/-- `_tick` (lines 82-142): snapshot the active proposals, then run the loop
body for each over the shared session. -/
def tick (now : ℚ) (rand : Nat → ℚ) (salt : Nat)
    (ag : AgentState) (neo : NeoState) (db : LocalDB) :
    AgentState × NeoState × LocalDB :=
  let active := (db.proposals.filter (fun p => decide (p.status = "active"))).map
    (fun p => p.id)
  active.foldl (tick_one now rand salt) (ag, neo, db)

/-- Vote rows held for a proposal id. -/
def votesFor (db : LocalDB) (pid : Nat) : Nat :=
  (db.votes.filter (fun v => decide (v.proposal_id = pid))).length

/-- C9 counterexample: at confidence 0 — inside the claim's 0–100 range —
the falsy `or 50` replaces the confidence by 50, so under the default bias
0.65 the code's threshold is 0.575 while the claimed formula gives 0.325. -/
theorem vote_probability_confidence_zero_mismatch :
    decide_vote_threshold (mkAgent 2 200 (65/100)) 0 = 23/40 ∧
    spec_vote_probability (65/100) 0 = 13/40 ∧
    decide_vote_threshold (mkAgent 2 200 (65/100)) 0 ≠
      spec_vote_probability (65/100) 0 := by
  refine ⟨?_, ?_, ?_⟩ <;>
    norm_num [decide_vote_threshold, spec_vote_probability, mkAgent]

/-- C9 amended: for every confidence in 1–100 the agent's yes-probability is
exactly clamp((yes_bias + confidence/100)/2, 0.05, 0.95), where yes_bias is
the agent's clamped configured bias; a confidence of 0 is first replaced by
50 through the falsy `or`. -/
theorem vote_probability_formula (ag : AgentState) (confidence : Nat)
    (h1 : 1 ≤ confidence) (h2 : confidence ≤ 100) :
    decide_vote_threshold ag confidence =
      spec_vote_probability ag.yes_probability confidence ∧
    decide_vote_threshold ag 0 = spec_vote_probability ag.yes_probability 50 := by
  constructor
  · unfold decide_vote_threshold spec_vote_probability
    have hne : confidence ≠ 0 := by omega
    rw [if_neg hne]
    dsimp only
    have hle : ((confidence : ℚ) / 100) ≤ 1 := by
      rw [div_le_one (by norm_num)]
      exact_mod_cast h2
    have hge : (0 : ℚ) ≤ (confidence : ℚ) / 100 := by positivity
    rw [max_eq_left hge, min_eq_left hle]
  · unfold decide_vote_threshold spec_vote_probability
    norm_num

/-- Witness for C9's amended statement at confidence 80 under the default
configuration. -/
theorem vote_probability_formula_witness :
    (1 ≤ 80 ∧ 80 ≤ 100) ∧
    decide_vote_threshold (mkAgent 2 200 (65/100)) 80 =
      spec_vote_probability (mkAgent 2 200 (65/100)).yes_probability 80 :=
  ⟨⟨by norm_num, by norm_num⟩,
   (vote_probability_formula (mkAgent 2 200 (65/100)) 80 (by norm_num)
     (by norm_num)).1⟩

/-! ### C8: the agent's cap and deadline guards -/

def c8Agent : AgentState := mkAgent 2 200 (65/100)

def c8Prop : DBProposal := ⟨1, some 1, 50, "active", 0, 0, some 0⟩

def c8DB : LocalDB := ⟨[c8Prop], []⟩

/-- C8 counterexample: proposal 1 carries deadline 0 — an instant long past
at tick time 1000 — but the truthiness guard `if proposal.deadline and ...`
treats the zero deadline as unset and skips the deadline check, so the
agent casts a vote on a proposal whose deadline has passed. -/
theorem agent_votes_past_zero_deadline :
    c8Prop.deadline = some 0 ∧ ((0 : ℚ) < 1000) ∧
    (tick 1000 (fun _ => 1/2) 9 c8Agent initialNeoState c8DB).2.2.votes.length = 1 := by
  refine ⟨rfl, by norm_num, ?_⟩
  have hdv : decide_vote c8Agent 50 (1/2) = 1 := by
    norm_num [decide_vote, decide_vote_threshold, c8Agent, mkAgent]
  norm_num [tick, tick_one, c8DB, c8Prop, c8Agent, mkAgent, alookupD, alookup,
    process_vote, neoclient_has_voted, neoclient_vote, simulate_vote, amem,
    ainsert, hasVoteRow, initialNeoState, hdv]

/-- The committed transaction shape of a successful `process_vote`: the Vote
row inserted and the matching tally field bumped, atomically. -/
def applyVoteRow (db : LocalDB) (pid : Nat) (addr : String) (v : Nat)
    (tx : TxHash) : LocalDB :=
  ⟨db.proposals.map (fun p => if p.id = pid then
      (if v = 1 then { p with yes_votes := p.yes_votes + 1 }
       else { p with no_votes := p.no_votes + 1 }) else p),
   db.votes ++ [⟨pid, addr, v, some tx⟩]⟩

theorem process_vote_ok_shape (neo : NeoState) (db : LocalDB)
    (proposal : DBProposal) (addr : String) (v salt : Nat) (neo1 : NeoState)
    (db1 : LocalDB) (res : VoteResult)
    (h : process_vote neo db proposal addr v [] salt = (neo1, .ok (db1, res))) :
    ∃ tx, db1 = applyVoteRow db proposal.id addr v tx := by
  unfold process_vote at h
  split at h
  · simp at h
  · split at h
    · simp at h
    all_goals
      split at h
      · simp at h
      · rename_i neo2 tx hvote
        rw [if_neg (by simp [hasVoteRow])] at h
        refine ⟨tx, ?_⟩
        have hdb := congrArg (fun x => x.2) h
        simp only at hdb
        rw [Except.ok.injEq] at hdb
        have h2 := congrArg (fun x => x.1) hdb
        simp only at h2
        rw [← h2]
        rfl

theorem tick_one_cases (now : ℚ) (rand : Nat → ℚ) (salt : Nat)
    (st : AgentState × NeoState × LocalDB) (pid : Nat) :
    tick_one now rand salt st pid = st ∨
    (∃ neo1, tick_one now rand salt st pid = (st.1, neo1, st.2.2)) ∨
    (∃ proposal addr v tx ag1 neo1,
      st.2.2.proposals.find? (fun q => decide (q.id = pid)) = some proposal ∧
      proposal.yes_votes + proposal.no_votes < st.1.max_votes_per_proposal ∧
      (match proposal.deadline with
       | none => false
       | some d => decide (d ≠ 0) && decide (now > (d : ℚ))) = false ∧
      ag1.max_votes_per_proposal = st.1.max_votes_per_proposal ∧
      tick_one now rand salt st pid =
        (ag1, neo1, applyVoteRow st.2.2 proposal.id addr v tx)) := by
  unfold tick_one
  cases hf : st.2.2.proposals.find? (fun p => decide (p.id = pid)) with
  | none => exact Or.inl rfl
  | some proposal =>
    dsimp only
    by_cases hcap : proposal.yes_votes + proposal.no_votes ≥ st.1.max_votes_per_proposal
    · rw [if_pos hcap]
      exact Or.inl rfl
    · rw [if_neg hcap]
      by_cases hdead : (match proposal.deadline with
          | none => false
          | some d => decide (d ≠ 0) && decide (now > (d : ℚ))) = true
      · rw [if_pos hdead]
        exact Or.inl rfl
      · rw [if_neg hdead]
        by_cases hint : now - alookupD st.1.last_vote_at pid 0 < st.1.interval_seconds
        · rw [if_pos hint]
          exact Or.inl rfl
        · rw [if_neg hint]
          rcases hpv : process_vote st.2.1 st.2.2 proposal
              (generate_voter_address st.1 pid (proposal.yes_votes + proposal.no_votes))
              (decide_vote st.1 proposal.confidence (rand pid)) [] salt with ⟨neo1, r⟩
          cases r with
          | error e => exact Or.inr (Or.inl ⟨neo1, rfl⟩)
          | ok val =>
            obtain ⟨db1, res⟩ := val
            obtain ⟨tx, htx⟩ := process_vote_ok_shape _ _ _ _ _ _ _ _ _ hpv
            refine Or.inr (Or.inr ⟨proposal,
              generate_voter_address st.1 pid (proposal.yes_votes + proposal.no_votes),
              decide_vote st.1 proposal.confidence (rand pid), tx,
              { st.1 with
                  last_vote_at := ainsert st.1.last_vote_at pid now,
                  vote_counters := ainsert st.1.vote_counters pid
                    (alookupD st.1.vote_counters pid 0 + 1) },
              neo1, rfl, by omega, by simpa using hdead, rfl, ?_⟩)
            rw [htx]

theorem find?_map_id_preserving (l : List DBProposal) (g : DBProposal → DBProposal)
    (hid : ∀ q, (g q).id = q.id) (i : Nat) (hfix : ∀ q, q.id = i → g q = q) :
    (l.map g).find? (fun q => decide (q.id = i)) =
      l.find? (fun q => decide (q.id = i)) := by
  induction l with
  | nil => rfl
  | cons a l ih =>
    rw [List.map_cons]
    by_cases h : a.id = i
    · rw [List.find?_cons_of_pos _ (by simp [hid, h]),
        List.find?_cons_of_pos _ (by simp [h]), hfix a h]
    · rw [List.find?_cons_of_neg _ (by simp [hid, h]),
        List.find?_cons_of_neg _ (by simp [h])]
      exact ih

theorem votesFor_applyVoteRow (db : LocalDB) (pid : Nat) (addr : String)
    (v : Nat) (tx : TxHash) (j : Nat) :
    votesFor (applyVoteRow db pid addr v tx) j =
      votesFor db j + (if pid = j then 1 else 0) := by
  unfold votesFor applyVoteRow
  dsimp only
  rw [List.filter_append, List.length_append]
  by_cases h : pid = j <;> simp [h]

theorem find?_applyVoteRow_ne (db : LocalDB) (pid : Nat) (addr : String)
    (v : Nat) (tx : TxHash) (j : Nat) (hne : j ≠ pid) :
    (applyVoteRow db pid addr v tx).proposals.find? (fun q => decide (q.id = j)) =
      db.proposals.find? (fun q => decide (q.id = j)) := by
  unfold applyVoteRow
  dsimp only
  apply find?_map_id_preserving
  · intro q
    by_cases h : q.id = pid <;> by_cases hv : v = 1 <;> simp [h, hv]
  · intro q hq
    rw [if_neg (by rw [hq]; exact hne)]

/-- C8 amended: within one tick, quantified over every reachable state, the
agent leaves a proposal completely alone — no new Vote row for it, its
stored row unchanged — once yes_votes + no_votes has reached
max_votes_per_proposal, or once its deadline is nonzero and has passed.
(A zero or unset deadline is treated as no deadline, per the
counterexample.) Iterating over ticks, the agent therefore never votes on a
capped or expired proposal. -/
theorem agent_skips_capped_and_expired (now : ℚ) (rand : Nat → ℚ) (salt : Nat)
    (ag : AgentState) (neo : NeoState) (db : LocalDB) (pid : Nat) (p : DBProposal)
    (hfind : db.proposals.find? (fun q => decide (q.id = pid)) = some p)
    (hskip : ag.max_votes_per_proposal ≤ p.yes_votes + p.no_votes ∨
             ∃ d, p.deadline = some d ∧ d ≠ 0 ∧ (d : ℚ) < now) :
    votesFor (tick now rand salt ag neo db).2.2 pid = votesFor db pid ∧
    (tick now rand salt ag neo db).2.2.proposals.find?
      (fun q => decide (q.id = pid)) = some p := by
  have step : ∀ (st : AgentState × NeoState × LocalDB) (pid2 : Nat),
      (st.1.max_votes_per_proposal = ag.max_votes_per_proposal ∧
       votesFor st.2.2 pid = votesFor db pid ∧
       st.2.2.proposals.find? (fun q => decide (q.id = pid)) = some p) →
      ((tick_one now rand salt st pid2).1.max_votes_per_proposal =
         ag.max_votes_per_proposal ∧
       votesFor (tick_one now rand salt st pid2).2.2 pid = votesFor db pid ∧
       (tick_one now rand salt st pid2).2.2.proposals.find?
         (fun q => decide (q.id = pid)) = some p) := by
    rintro st pid2 ⟨h1, h2, h3⟩
    rcases tick_one_cases now rand salt st pid2 with heq |
      ⟨neo1, heq⟩ | ⟨proposal, addr, v, tx, ag1, neo1, hf, hcap, hdead, hmax, heq⟩
    · rw [heq]
      exact ⟨h1, h2, h3⟩
    · rw [heq]
      exact ⟨h1, h2, h3⟩
    · rw [heq]
      by_cases hpp : pid2 = pid
      · exfalso
        subst hpp
        rw [h3] at hf
        injection hf with hf
        subst hf
        rcases hskip with hcap2 | ⟨d, hd, hdne, hlt⟩
        · rw [h1] at hcap
          omega
        · rw [hd] at hdead
          simp at hdead
          exact absurd hlt (not_lt.mpr (hdead hdne))
      · have hpid2 : proposal.id = pid2 := by simpa using List.find?_some hf
        refine ⟨hmax.trans h1, ?_, ?_⟩
        · rw [votesFor_applyVoteRow]
          rw [if_neg (by rw [hpid2]; exact hpp)]
          simpa using h2
        · rw [find?_applyVoteRow_ne]
          · exact h3
          · rw [hpid2]
            exact fun hh => hpp hh.symm
  have fold : ∀ (l : List Nat) (st : AgentState × NeoState × LocalDB),
      (st.1.max_votes_per_proposal = ag.max_votes_per_proposal ∧
       votesFor st.2.2 pid = votesFor db pid ∧
       st.2.2.proposals.find? (fun q => decide (q.id = pid)) = some p) →
      ((l.foldl (tick_one now rand salt) st).1.max_votes_per_proposal =
         ag.max_votes_per_proposal ∧
       votesFor (l.foldl (tick_one now rand salt) st).2.2 pid = votesFor db pid ∧
       (l.foldl (tick_one now rand salt) st).2.2.proposals.find?
         (fun q => decide (q.id = pid)) = some p) := by
    intro l
    induction l with
    | nil => exact fun st h => h
    | cons a l ih => exact fun st h => ih _ (step st a h)
  have h := fold ((db.proposals.filter (fun p => decide (p.status = "active"))).map
    (fun p => p.id)) (ag, neo, db) ⟨rfl, rfl, hfind⟩
  unfold tick
  exact ⟨h.2.1, h.2.2⟩

def c8CapProp : DBProposal := ⟨1, some 1, 80, "active", 120, 80, some 99999⟩

def c8CapDB : LocalDB := ⟨[c8CapProp], []⟩

/-- Witness for C8's amended statement: proposal 1 already carries 200 votes
— the default cap — so a tick leaves its vote count and stored row
untouched. -/
theorem agent_skips_capped_and_expired_witness :
    c8CapDB.proposals.find? (fun q => decide (q.id = 1)) = some c8CapProp ∧
    c8Agent.max_votes_per_proposal ≤ c8CapProp.yes_votes + c8CapProp.no_votes ∧
    (votesFor (tick 1000 (fun _ => 1/2) 9 c8Agent initialNeoState c8CapDB).2.2 1 =
       votesFor c8CapDB 1 ∧
     (tick 1000 (fun _ => 1/2) 9 c8Agent initialNeoState c8CapDB).2.2.proposals.find?
       (fun q => decide (q.id = 1)) = some c8CapProp) :=
  ⟨by decide, by decide,
   agent_skips_capped_and_expired 1000 (fun _ => 1/2) 9 c8Agent initialNeoState
     c8CapDB 1 c8CapProp (by decide) (Or.inl (by decide))⟩



/-- Proposal-store invariant: every Vote row references a stored proposal,
and every proposal's tallies sum to its number of Vote rows. -/
def StoreInv (db : LocalDB) : Prop :=
  (∀ w ∈ db.votes, ∃ q ∈ db.proposals, w.proposal_id = q.id) ∧
  (∀ q ∈ db.proposals, q.yes_votes + q.no_votes = votesFor db q.id)

/-- The tally mutation of `process_vote` on the row matching the proposal. -/
def bumpTally (pid : Nat) (v : Nat) (p : DBProposal) : DBProposal :=
  if p.id = pid then
    (if v = 1 then { p with yes_votes := p.yes_votes + 1 }
     else { p with no_votes := p.no_votes + 1 })
  else p

theorem bumpTally_id (pid v : Nat) (p : DBProposal) :
    (bumpTally pid v p).id = p.id := by
  unfold bumpTally
  by_cases h : p.id = pid <;> by_cases hv : v = 1 <;> simp [h, hv]

theorem bumpTally_sum (pid v : Nat) (p : DBProposal) :
    (bumpTally pid v p).yes_votes + (bumpTally pid v p).no_votes =
      p.yes_votes + p.no_votes + (if p.id = pid then 1 else 0) := by
  unfold bumpTally
  by_cases h : p.id = pid <;> by_cases hv : v = 1 <;> simp [h, hv] <;> omega

theorem bumpTally_eq_of_ne (pid v : Nat) (p : DBProposal) (h : p.id ≠ pid) :
    bumpTally pid v p = p := by
  unfold bumpTally
  rw [if_neg h]

theorem StoreInv_applyVoteRow (db : LocalDB) (pid : Nat) (addr : String)
    (v : Nat) (tx : TxHash) (hinv : StoreInv db)
    (hex : ∃ q ∈ db.proposals, q.id = pid) :
    StoreInv (applyVoteRow db pid addr v tx) := by
  obtain ⟨hfk, htally⟩ := hinv
  obtain ⟨q0, hq0, hq0id⟩ := hex
  constructor
  · intro w hw
    have hw2 : w ∈ db.votes ∨ w = ⟨pid, addr, v, some tx⟩ := by
      simpa [applyVoteRow] using hw
    rcases hw2 with hw2 | rfl
    · obtain ⟨q, hq, hqid⟩ := hfk w hw2
      refine ⟨bumpTally pid v q, ?_, ?_⟩
      · show bumpTally pid v q ∈ (applyVoteRow db pid addr v tx).proposals
        unfold applyVoteRow
        exact List.mem_map_of_mem _ hq
      · rw [bumpTally_id]
        exact hqid
    · refine ⟨bumpTally pid v q0, ?_, ?_⟩
      · show bumpTally pid v q0 ∈ (applyVoteRow db pid addr v tx).proposals
        unfold applyVoteRow
        exact List.mem_map_of_mem _ hq0
      · rw [bumpTally_id, hq0id]
  · intro q2 hq2
    have hmem : ∃ q ∈ db.proposals, bumpTally pid v q = q2 := by
      simpa [applyVoteRow] using hq2
    obtain ⟨q, hq, rfl⟩ := hmem
    rw [bumpTally_id, votesFor_applyVoteRow, bumpTally_sum, htally q hq]
    by_cases h : q.id = pid
    · rw [if_pos h, if_pos h.symm]
    · rw [if_neg h, if_neg (fun hh => h hh.symm)]

theorem le_foldr_max (l : List Nat) (x : Nat) (hx : x ∈ l) :
    x ≤ l.foldr max 0 := by
  induction l with
  | nil => cases hx
  | cons a l ih =>
    rcases List.mem_cons.mp hx with rfl | hx2
    · exact le_max_left _ _
    · exact le_trans (ih hx2) (le_max_right _ _)

theorem StoreInv_append_fresh (db : LocalDB) (P : DBProposal)
    (hinv : StoreInv db) (hzero : P.yes_votes = 0 ∧ P.no_votes = 0)
    (hfresh : ∀ q ∈ db.proposals, q.id < P.id) :
    StoreInv ⟨db.proposals ++ [P], db.votes⟩ := by
  obtain ⟨hfk, htally⟩ := hinv
  constructor
  · intro w hw
    obtain ⟨q, hq, hqid⟩ := hfk w hw
    exact ⟨q, List.mem_append_left _ hq, hqid⟩
  · intro q hq
    rcases List.mem_append.mp hq with hq2 | hq2
    · exact htally q hq2
    · rw [List.mem_singleton] at hq2
      subst hq2
      rw [hzero.1, hzero.2]
      show 0 = votesFor db q.id
      have hfilter : db.votes.filter (fun w => decide (w.proposal_id = q.id)) = [] := by
        rw [List.filter_eq_nil_iff]
        intro w hw
        obtain ⟨q2, hq2b, hqid2⟩ := hfk w hw
        have := hfresh q2 hq2b
        simp only [decide_eq_true_eq]
        omega
      unfold votesFor
      rw [hfilter]
      rfl

theorem StoreInv_map_keep_tallies (db : LocalDB) (g : DBProposal → DBProposal)
    (hid : ∀ q, (g q).id = q.id) (hyes : ∀ q, (g q).yes_votes = q.yes_votes)
    (hno : ∀ q, (g q).no_votes = q.no_votes) (hinv : StoreInv db) :
    StoreInv ⟨db.proposals.map g, db.votes⟩ := by
  obtain ⟨hfk, htally⟩ := hinv
  constructor
  · intro w hw
    obtain ⟨q, hq, hqid⟩ := hfk w hw
    exact ⟨g q, List.mem_map_of_mem _ hq, by rw [hid]; exact hqid⟩
  · intro q2 hq2
    obtain ⟨q, hq, rfl⟩ := List.mem_map.mp hq2
    rw [hid, hyes, hno]
    exact htally q hq



/-- `sqlite` assigns the next INTEGER PRIMARY KEY as one past the largest
stored id. -/
def nextProposalRowId (db : LocalDB) : Nat :=
  (db.proposals.map (fun p => p.id)).foldr max 0 + 1

/-- The proposal-creation path of `main.py` (lines 577-605): compute the
seven-day deadline, create the remote proposal through the ledger client,
then insert the local row with zero tallies, active status and the remote
id. -/
def submit_memo (neo : NeoState) (db : LocalDB) (title ipfs_hash : List Char)
    (confidence : Nat) (tnow : Nat) (salt : Nat) : NeoState × LocalDB × Nat :=
  let deadline := tnow + 7 * 24 * 60 * 60
  let r := simulate_create_proposal neo title ipfs_hash deadline confidence salt
  let newId := nextProposalRowId db
  (r.1,
   ⟨db.proposals ++ [⟨newId, some r.2.2, confidence, "active", 0, 0, some deadline⟩],
    db.votes⟩,
   newId)

/-- The listener body for one proposal id drawn from its active snapshot. -/
def listener_step (db : LocalDB) (pid : Nat) (data : List Char) : LocalDB :=
  match db.proposals.find? (fun p => decide (p.id = pid)) with
  | none => db
  | some proposal =>
    if proposal.status = "active" then listener_adopt db proposal data else db

theorem vote_endpoint_db_cases (neo : NeoState) (db : LocalDB) (pid : Nat)
    (addr : String) (v salt : Nat) :
    (vote_endpoint neo db pid addr v [] salt).2.1 = db ∨
    ∃ proposal tx,
      db.proposals.find? (fun q => decide (q.id = pid)) = some proposal ∧
      (vote_endpoint neo db pid addr v [] salt).2.1 =
        applyVoteRow db proposal.id addr v tx := by
  unfold vote_endpoint
  cases hf : db.proposals.find? (fun q => decide (q.id = pid)) with
  | none => exact Or.inl rfl
  | some proposal =>
    dsimp only
    by_cases hs : proposal.status ≠ "active"
    · rw [if_pos hs]
      exact Or.inl rfl
    · rw [if_neg hs]
      by_cases hd : hasVoteRow db.votes pid addr = true
      · rw [if_pos hd]
        exact Or.inl rfl
      · rw [if_neg hd]
        rcases hpv : process_vote neo db proposal addr v [] salt with ⟨neo1, r⟩
        cases r with
        | ok val =>
          obtain ⟨db1, res⟩ := val
          obtain ⟨tx, htx⟩ := process_vote_ok_shape _ _ _ _ _ _ _ _ _ hpv
          exact Or.inr ⟨proposal, tx, rfl, htx⟩
        | error e =>
          cases e with
          | httpExc s d => exact Or.inl rfl
          | pyExc e2 => exact Or.inl rfl

theorem finalize_endpoint_db_cases (neo : NeoState) (db : LocalDB) (pid : Nat)
    (exc : Option PyExc) (salt : Nat) :
    (finalize_endpoint neo db pid exc salt).2.1 = db ∨
    ∃ (proposal : DBProposal) (s : String),
      (finalize_endpoint neo db pid exc salt).2.1 =
        ⟨db.proposals.map (fun p =>
          if p.id = proposal.id then { p with status := s } else p), db.votes⟩ := by
  unfold finalize_endpoint
  cases hf : db.proposals.find? (fun q => decide (q.id = pid)) with
  | none => exact Or.inl rfl
  | some proposal =>
    dsimp only
    by_cases hs : proposal.status ≠ "active"
    · rw [if_pos hs]
      exact Or.inl rfl
    · rw [if_neg hs]
      cases exc with
      | some e => exact Or.inl rfl
      | none =>
        exact Or.inr ⟨proposal, _, rfl⟩

theorem listener_adopt_db_cases (db : LocalDB) (proposal : DBProposal)
    (data : List Char) :
    listener_adopt db proposal data = db ∨
    ∃ (s : String), listener_adopt db proposal data =
      ⟨db.proposals.map (fun p =>
        if p.id = proposal.id then { p with status := s } else p), db.votes⟩ := by
  unfold listener_adopt
  dsimp only
  repeat'
    first
    | exact Or.inl rfl
    | exact Or.inr ⟨_, rfl⟩
    | split

theorem listener_step_db_cases (db : LocalDB) (pid : Nat) (data : List Char) :
    listener_step db pid data = db ∨
    ∃ (proposal : DBProposal) (s : String), listener_step db pid data =
      ⟨db.proposals.map (fun p =>
        if p.id = proposal.id then { p with status := s } else p), db.votes⟩ := by
  unfold listener_step
  cases hf : db.proposals.find? (fun p => decide (p.id = pid)) with
  | none => exact Or.inl rfl
  | some proposal =>
    dsimp only
    by_cases hs : proposal.status = "active"
    · rw [if_pos hs]
      rcases listener_adopt_db_cases db proposal data with h | ⟨s, h⟩
      · exact Or.inl h
      · exact Or.inr ⟨proposal, s, h⟩
    · rw [if_neg hs]
      exact Or.inl rfl



/-- The operations of the voting core that touch the Proposal Store
(deletion endpoints are administrative concerns outside the core, per the
spec's scope). `tickOp` carries the tick time, the per-proposal uniform
samples and the hash salt; `listenerOp` carries the fetched remote record. -/
inductive Op where
  | createOp (title ipfs_hash : List Char) (confidence tnow salt : Nat)
  | voteOp (proposal_id : Nat) (voter_address : String) (vote salt : Nat)
  | finalizeOp (proposal_id : Nat) (ledgerExc : Option PyExc) (salt : Nat)
  | tickOp (now : ℚ) (rand : Nat → ℚ) (salt : Nat)
  | listenerOp (proposal_id : Nat) (on_chain_data : List Char)

def applyOp (st : AgentState × NeoState × LocalDB) :
    Op → AgentState × NeoState × LocalDB
  | .createOp t i c tn s =>
    let r := submit_memo st.2.1 st.2.2 t i c tn s
    (st.1, r.1, r.2.1)
  | .voteOp pid addr v s =>
    let r := vote_endpoint st.2.1 st.2.2 pid addr v [] s
    (st.1, r.1, r.2.1)
  | .finalizeOp pid exc s =>
    let r := finalize_endpoint st.2.1 st.2.2 pid exc s
    (st.1, r.1, r.2.1)
  | .tickOp now rand s => tick now rand s st.1 st.2.1 st.2.2
  | .listenerOp pid data => (st.1, st.2.1, listener_step st.2.2 pid data)

def runOps (ag0 : AgentState) (ops : List Op) : AgentState × NeoState × LocalDB :=
  ops.foldl applyOp (ag0, initialNeoState, emptyDB)

theorem StoreInv_status_map (db : LocalDB) (pid : Nat) (s : String)
    (hinv : StoreInv db) :
    StoreInv ⟨db.proposals.map (fun p =>
      if p.id = pid then { p with status := s } else p), db.votes⟩ := by
  apply StoreInv_map_keep_tallies db _ _ _ _ hinv
  · intro q
    by_cases h : q.id = pid <;> simp [h]
  · intro q
    by_cases h : q.id = pid <;> simp [h]
  · intro q
    by_cases h : q.id = pid <;> simp [h]

theorem applyOp_preserves_StoreInv (st : AgentState × NeoState × LocalDB)
    (op : Op) (hinv : StoreInv st.2.2) : StoreInv (applyOp st op).2.2 := by
  cases op with
  | createOp t i c tn s =>
    show StoreInv (submit_memo st.2.1 st.2.2 t i c tn s).2.1
    unfold submit_memo
    dsimp only
    apply StoreInv_append_fresh st.2.2 _ hinv ⟨rfl, rfl⟩
    intro q hq
    show q.id < nextProposalRowId st.2.2
    unfold nextProposalRowId
    have := le_foldr_max (st.2.2.proposals.map (fun p => p.id)) q.id
      (List.mem_map_of_mem _ hq)
    omega
  | voteOp pid addr v s =>
    show StoreInv (vote_endpoint st.2.1 st.2.2 pid addr v [] s).2.1
    rcases vote_endpoint_db_cases st.2.1 st.2.2 pid addr v s with h | ⟨proposal, tx, hf, h⟩
    · rw [h]
      exact hinv
    · rw [h]
      exact StoreInv_applyVoteRow _ _ _ _ _ hinv
        ⟨proposal, List.mem_of_find?_eq_some hf, rfl⟩
  | finalizeOp pid exc s =>
    show StoreInv (finalize_endpoint st.2.1 st.2.2 pid exc s).2.1
    rcases finalize_endpoint_db_cases st.2.1 st.2.2 pid exc s with h | ⟨proposal, s2, h⟩
    · rw [h]
      exact hinv
    · rw [h]
      exact StoreInv_status_map _ _ _ hinv
  | listenerOp pid data =>
    show StoreInv (listener_step st.2.2 pid data)
    rcases listener_step_db_cases st.2.2 pid data with h | ⟨proposal, s2, h⟩
    · rw [h]
      exact hinv
    · rw [h]
      exact StoreInv_status_map _ _ _ hinv
  | tickOp now rand s =>
    show StoreInv (tick now rand s st.1 st.2.1 st.2.2).2.2
    have step : ∀ (st2 : AgentState × NeoState × LocalDB) (pid : Nat),
        StoreInv st2.2.2 → StoreInv (tick_one now rand s st2 pid).2.2 := by
      intro st2 pid h2
      rcases tick_one_cases now rand s st2 pid with heq |
        ⟨neo1, heq⟩ | ⟨proposal, addr, v, tx, ag1, neo1, hf, hcap, hdead, hmax, heq⟩
      · rw [heq]
        exact h2
      · rw [heq]
        exact h2
      · rw [heq]
        exact StoreInv_applyVoteRow _ _ _ _ _ h2
          ⟨proposal, List.mem_of_find?_eq_some hf, rfl⟩
    have fold : ∀ (l : List Nat) (st2 : AgentState × NeoState × LocalDB),
        StoreInv st2.2.2 → StoreInv (l.foldl (tick_one now rand s) st2).2.2 := by
      intro l
      induction l with
      | nil => exact fun st2 h2 => h2
      | cons a l ih => exact fun st2 h2 => ih _ (step st2 a h2)
    unfold tick
    exact fold _ (st.1, st.2.1, st.2.2) hinv

/-- C5: along every operation sequence of the voting core from the empty
store, every proposal's yes_votes + no_votes equals the number of persisted
Vote rows with its proposal_id: the one operation that inserts a Vote row —
a committed `process_vote`, reached from the vote endpoints or the agent —
bumps exactly one matching tally in the same transaction, and no operation
moves a tally without inserting the corresponding row. -/
theorem tally_matches_vote_rows (ag0 : AgentState) (ops : List Op) :
    ∀ p ∈ (runOps ag0 ops).2.2.proposals,
      p.yes_votes + p.no_votes = votesFor (runOps ag0 ops).2.2 p.id := by
  have base : StoreInv emptyDB := by
    constructor
    · intro w hw
      cases hw
    · intro q hq
      cases hq
  have fold : ∀ (l : List Op) (st : AgentState × NeoState × LocalDB),
      StoreInv st.2.2 → StoreInv (l.foldl applyOp st).2.2 := by
    intro l
    induction l with
    | nil => exact fun st h => h
    | cons a l ih => exact fun st h => ih _ (applyOp_preserves_StoreInv st a h)
  exact (fold ops (ag0, initialNeoState, emptyDB) base).2

/-- Witness for C5: a two-operation trace — create one proposal, cast one
yes vote — after which the stored proposal holds tallies 1 and 0 and one
matching Vote row. -/
theorem tally_matches_vote_rows_witness :
    (⟨1, some 1, 80, "active", 1, 0, some 605800⟩ : DBProposal) ∈
      (runOps c8Agent [.createOp ("Deal X".data) ("cid123".data) 80 1000 3,
        .voteOp 1 "NVoterA" 1 4]).2.2.proposals ∧
    1 + 0 = votesFor (runOps c8Agent [.createOp ("Deal X".data) ("cid123".data) 80 1000 3,
        .voteOp 1 "NVoterA" 1 4]).2.2 1 :=
  ⟨by decide,
   tally_matches_vote_rows c8Agent
     [.createOp ("Deal X".data) ("cid123".data) 80 1000 3, .voteOp 1 "NVoterA" 1 4]
     ⟨1, some 1, 80, "active", 1, 0, some 605800⟩ (by decide)⟩

end SmartBoard
